import Mathlib

/-!
Verification of the multi-file authentication state layer
(`src/lib/Utils/use-multi-file-auth-state.js`).

The development shallowly embeds the source file's functions:
`sanitizeName`, `fixFileName`, `writeData`, `readData`, `removeData`,
the `keys.get` / `keys.set` accessors and the initialization code of
`useMultiFileAuthState`, over an explicit filesystem state.  Components
the repository uses but whose code is not part of the source tree
(the per-path file lock obtained through `getFileLock`, and the
`BufferJSON` replacer / reviver with its base64 byte encoding) are
modelled from the specification and marked as such in doc comments.
-/

namespace MultiFileAuthState

/-! ## Path sanitizer (`sanitizeName`, source lines 31-37) -/

/-- JavaScript whitespace characters as matched by `\s` in the regexes of
`sanitizeName` and removed by `String.prototype.trim`. -/
def isJsSpace (c : Char) : Bool :=
  c = ' ' || c = '\t' || c = '\n' || c = '\r' ||
  c = '\x0b' || c = '\x0c' || c = ' ' || c = '﻿'

/-- Characters kept by the regex `[^A-Za-z0-9_]` replacement (word characters). -/
def isWordChar (c : Char) : Bool :=
  ('A' ≤ c && c ≤ 'Z') || ('a' ≤ c && c ≤ 'z') || ('0' ≤ c && c ≤ '9') || c = '_'

/-- JS `String.prototype.trim`: drop JS whitespace from both ends. -/
def jsTrim (l : List Char) : List Char :=
  ((l.dropWhile isJsSpace).reverse.dropWhile isJsSpace).reverse

/-- The replacement `base.replace(/\s+/g, '_')`: every maximal run of JS whitespace becomes a
single underscore.  `inRun` records whether the previous character was
whitespace (so the run only emits one `_`). -/
def collapseWs : List Char → Bool → List Char
  | [], _ => []
  | c :: rest, inRun =>
    if isJsSpace c then
      if inRun then collapseWs rest true else '_' :: collapseWs rest true
    else
      c :: collapseWs rest false

/-- The expression `input?.trim() || 'auth'` (line 32): trim when present, fall back to
`"auth"` when the input is absent or trims to the empty string. -/
def baseOf (input : Option (List Char)) : List Char :=
  match input with
  | none => "auth".data
  | some s =>
    let t := jsTrim s
    if t = [] then "auth".data else t

/-- The function `sanitizeName` from the source (lines 31-37), on a list of characters:
`input?.trim() || 'auth'`, collapse whitespace runs to `_`, strip
non-word characters, truncate to 8, and fall back to `"auth"` when empty. -/
def sanitizeNameL (input : Option (List Char)) : List Char :=
  let base := (collapseWs (baseOf input) false).filter isWordChar
  let base := if base.length > 8 then base.take 8 else base
  if base = [] then "auth".data else base

/-- The function `sanitizeName` from the source, on strings. -/
def sanitizeName (input : Option String) : String :=
  String.mk (sanitizeNameL (input.map String.data))

/-! ## File-name sanitizer (`fixFileName`, source line 41) -/

/-- First pass of `fixFileName`: `file.replace(/\//g, '__')`. -/
def replaceSlash (l : List Char) : List Char :=
  l.flatMap fun c => if c = '/' then ['_', '_'] else [c]

/-- Second pass of `fixFileName`: `.replace(/:/g, '-')`. -/
def replaceColon (l : List Char) : List Char :=
  l.map fun c => if c = ':' then '-' else c

/-- The function `fixFileName` from the source (line 41): replace every `/` by `__`,
then every `:` by `-`. -/
def fixFileName (s : String) : String :=
  String.mk (replaceColon (replaceSlash s.data))

/-! ## Base64 byte codec

Modelled from the spec: the `BufferJSON` replacer/reviver used by
`writeData`/`readData` (imported from `Utils/generics`, not part of the
source tree) represents binary payloads as base64 text.  `b64Encode` and
`b64Decode` model that reversible byte/text encoding. -/

/-- The base64 alphabet, index 0 to 63. -/
def b64Chars : List Char :=
  "ABCDEFGHIJKLMNOPQRSTUVWXYZabcdefghijklmnopqrstuvwxyz0123456789+/".data

/-- Character for a six-bit group. -/
def sextetToChar (n : Nat) : Char := b64Chars.getD n '='

/-- Six-bit group for a base64 character. -/
def charToSextet (c : Char) : Nat := b64Chars.indexOf c

/-- Modelled from the spec: base64 encoding of a byte sequence, with `=`
padding, as produced by `Buffer.toString('base64')`.  Bytes are taken
modulo 256. -/
def b64Encode : List Nat → List Char
  | a :: b :: c :: rest =>
    sextetToChar (a % 256 / 4) ::
    sextetToChar (a % 256 % 4 * 16 + b % 256 / 16) ::
    sextetToChar (b % 256 % 16 * 4 + c % 256 / 64) ::
    sextetToChar (c % 256 % 64) :: b64Encode rest
  | [a, b] =>
    [sextetToChar (a % 256 / 4),
     sextetToChar (a % 256 % 4 * 16 + b % 256 / 16),
     sextetToChar (b % 256 % 16 * 4), '=']
  | [a] =>
    [sextetToChar (a % 256 / 4), sextetToChar (a % 256 % 4 * 16), '=', '=']
  | [] => []

/-- Modelled from the spec: base64 decoding back to bytes, as performed by
`Buffer.from(text, 'base64')`.  Lenient on text that is not a valid
encoding (such text never arises from `b64Encode`). -/
def b64Decode : List Char → List Nat
  | c1 :: c2 :: c3 :: c4 :: rest =>
    if c4 = '=' then
      if c3 = '=' then
        [charToSextet c1 * 4 + charToSextet c2 / 16]
      else
        [charToSextet c1 * 4 + charToSextet c2 / 16,
         charToSextet c2 % 16 * 16 + charToSextet c3 / 4]
    else
      (charToSextet c1 * 4 + charToSextet c2 / 16) ::
      (charToSextet c2 % 16 * 16 + charToSextet c3 / 4) ::
      (charToSextet c3 % 4 * 64 + charToSextet c4) ::
      b64Decode rest
  | _ => []

/-! ## JSON values and the BufferJSON replacer/reviver -/

/-- A JSON-like value as handled by `JSON.stringify`/`JSON.parse` in
`writeData`/`readData`, extended with a constructor for binary payloads
(`Buffer`/`Uint8Array` nodes, which only exist in memory, never in the
serialized text).  Numbers are modelled as integers. -/
inductive JVal where
  | null
  | bool (b : Bool)
  | num (n : Int)
  | str (s : String)
  | arr (elems : List JVal)
  | obj (fields : List (String × JVal))
  | buf (bytes : List Nat)

/-- JavaScript truthiness of a value, as tested by `value ?` in `keys.set`,
`value &&` in `keys.get` and `... || initAuthCreds()`. -/
def jsTruthy : JVal → Bool
  | .null => false
  | .bool b => b
  | .num n => n != 0
  | .str s => s != ""
  | .arr _ => true
  | .obj _ => true
  | .buf _ => true

/-- When a field list is literally the tagged buffer form
`[("type", "Buffer"), ("data", <text>)]`, return the text. -/
def tagData : List (String × JVal) → Option (List Char)
  | [(k1, v1), (k2, v2)] =>
    match v1, v2 with
    | .str t, .str u =>
      if k1 = "type" ∧ t = "Buffer" ∧ k2 = "data" then some u.data else none
    | _, _ => none
  | _ => none

mutual

/-- Modelled from the spec: the `BufferJSON.replacer` (from
`Utils/generics`, not in the source tree) rewrites every binary payload
into the distinguished tagged form `{"type": "Buffer", "data": <base64>}`;
all other nodes are serialized structurally. -/
def encodeJ : JVal → JVal
  | .buf bs => .obj [("type", .str "Buffer"), ("data", .str (String.mk (b64Encode bs)))]
  | .arr xs => .arr (encodeL xs)
  | .obj fs => .obj (encodeF fs)
  | .null => .null
  | .bool b => .bool b
  | .num n => .num n
  | .str s => .str s

/-- Replacer applied to the elements of an array. -/
def encodeL : List JVal → List JVal
  | [] => []
  | x :: xs => encodeJ x :: encodeL xs

/-- Replacer applied to the values of an object's fields. -/
def encodeF : List (String × JVal) → List (String × JVal)
  | [] => []
  | (k, v) :: fs => (k, encodeJ v) :: encodeF fs

end

mutual

/-- Modelled from the spec: the `BufferJSON.reviver` turns every object of
the distinguished tagged form back into a binary payload and leaves all
other nodes alone. -/
def decodeJ : JVal → JVal
  | .obj fs =>
    match tagData fs with
    | some cs => .buf (b64Decode cs)
    | none => .obj (decodeF fs)
  | .arr xs => .arr (decodeL xs)
  | .null => .null
  | .bool b => .bool b
  | .num n => .num n
  | .str s => .str s
  | .buf bs => .buf bs

/-- Reviver applied to the elements of an array. -/
def decodeL : List JVal → List JVal
  | [] => []
  | x :: xs => decodeJ x :: decodeL xs

/-- Reviver applied to the values of an object's fields. -/
def decodeF : List (String × JVal) → List (String × JVal)
  | [] => []
  | (k, v) :: fs => (k, decodeJ v) :: decodeF fs

end

mutual

/-- A value is clean when none of its object nodes collides with the tagged
buffer form (binary payloads themselves are fine at any depth). -/
def cleanJ : JVal → Bool
  | .arr xs => cleanL xs
  | .obj fs => (tagData fs).isNone && cleanF fs
  | .buf bs => bs.all fun b => b < 256
  | _ => true

/-- Cleanness of every element of an array. -/
def cleanL : List JVal → Bool
  | [] => true
  | x :: xs => cleanJ x && cleanL xs

/-- Cleanness of every field value of an object. -/
def cleanF : List (String × JVal) → Bool
  | [] => true
  | (_, v) :: fs => cleanJ v && cleanF fs

end

/-! ## Filesystem model and the record store -/

/-- Content of a file on disk: either the JSON serialization of a value
tree (as produced by `JSON.stringify` with the replacer already applied),
or raw text that is not valid JSON. -/
inductive FileContent where
  | tree (v : JVal)
  | raw (s : String)

/-- What `stat` reports for a path. -/
inductive PathStat where
  | missing
  | file
  | dir
  deriving DecidableEq

/-- Error classes of the modelled filesystem calls. -/
inductive IOErr where
  | enoent
  | eacces
  | eio
  | parseFail
  | notDir
  deriving DecidableEq

/-- Filesystem state.  Paths are segment lists.  The `readErr`, `writeErr`
and `unlinkErr` fields inject I/O failures (permission errors, a
concurrently removed directory, ...) at chosen paths. -/
structure FS where
  files : List String → Option FileContent
  readErr : List String → Bool
  writeErr : List String → Bool
  unlinkErr : List String → Bool
  stat : List String → PathStat

/-- The call `fs.readFile(path, 'utf-8')`. -/
def readFileFs (fs : FS) (p : List String) : Except IOErr FileContent :=
  if fs.readErr p then .error .eacces
  else
    match fs.files p with
    | none => .error .enoent
    | some c => .ok c

/-- The call `JSON.parse(data, BufferJSON.reviver)`: fails on malformed text, and
applies the reviver to a parsed tree. -/
def parseContent : FileContent → Except IOErr JVal
  | .raw _ => .error .parseFail
  | .tree v => .ok (decodeJ v)

/-- The call `fs.writeFile(path, text)`. -/
def writeFileFs (fs : FS) (p : List String) (v : JVal) : Except IOErr FS :=
  if fs.writeErr p then .error .eio
  else .ok { fs with files := fun q => if q = p then some (.tree v) else fs.files q }

/-- The call `fs.unlink(path)`: fails with `ENOENT` on a missing file and with an
I/O error where one is injected. -/
def unlinkFs (fs : FS) (p : List String) : Except IOErr FS :=
  if fs.unlinkErr p then .error .eio
  else
    match fs.files p with
    | none => .error .enoent
    | some _ => .ok { fs with files := fun q => if q = p then none else fs.files q }

/-- The path `join(folder, fixFileName(file))` (lines 44, 57, 74). -/
def filePathOf (folder : List String) (file : String) : List String :=
  folder ++ [fixFileName file]

/-- The function `writeData` (lines 43-53): serialize with the replacer and write under
the per-path lock; a write failure is not caught (the `finally` only
releases the lock) and propagates to the caller. -/
def writeData (fs : FS) (folder : List String) (data : JVal) (file : String) :
    Except IOErr FS :=
  writeFileFs fs (filePathOf folder file) (encodeJ data)

/-- The function `readData` (lines 55-70): read and parse under the lock; the
surrounding try/catch maps every failure to `null`. -/
def readData (fs : FS) (folder : List String) (file : String) : JVal :=
  match readFileFs fs (filePathOf folder file) with
  | .error _ => .null
  | .ok c =>
    match parseContent c with
    | .error _ => .null
    | .ok v => v

/-- The function `removeData` (lines 72-86): unlink under the lock; the inner bare
`catch {}` swallows every unlink error (missing file, permission, I/O),
so the caller always observes success and the filesystem is left as the
unlink left it. -/
def removeData (fs : FS) (folder : List String) (file : String) : Except IOErr FS :=
  match unlinkFs fs (filePathOf folder file) with
  | .error _ => .ok fs
  | .ok fs' => .ok fs'

/-! ## The keys accessor (`keys.get` / `keys.set`) -/

/-- The file name `` `${category}-${id}.json` `` composed by `keys.get`
(line 110) and `keys.set` (line 124). -/
def keyFileName (category id : String) : String :=
  category ++ "-" ++ id ++ ".json"

/-- One task pushed by `keys.set`. -/
inductive FileOp where
  | write (file : String) (v : JVal)
  | remove (file : String)

/-- The task list built by `keys.set` (lines 120-127): for each present
`(category, id, value)` entry, `writeData` when the value is truthy and
`removeData` otherwise (`value ? writeData(...) : removeData(...)`). -/
def setTasks (updates : List (String × List (String × JVal))) : List FileOp :=
  updates.flatMap fun cu =>
    cu.2.map fun iv =>
      if jsTruthy iv.2 then FileOp.write (keyFileName cu.1 iv.1) iv.2
      else FileOp.remove (keyFileName cu.1 iv.1)

/-- Execute one task. -/
def runTask (fs : FS) (folder : List String) : FileOp → Except IOErr FS
  | .write f v => writeData fs folder v f
  | .remove f => removeData fs folder f

/-- The `Promise.all` over the task list: every task runs to completion; the
overall result carries the first failure, if any. -/
def runTasks (fs : FS) (folder : List String) : List FileOp → FS × Option IOErr
  | [] => (fs, none)
  | t :: ts =>
    match runTask fs folder t with
    | .ok fs' => runTasks fs' folder ts
    | .error e => ((runTasks fs folder ts).1, some e)

/-- The accessor `keys.set` (lines 119-129). -/
def setKeys (fs : FS) (folder : List String)
    (updates : List (String × List (String × JVal))) : FS × Option IOErr :=
  runTasks fs folder (setTasks updates)

/-- The accessor `keys.get` (lines 106-118): one `readData` per id; for the category
`app-state-sync-key` a truthy value is further decoded by
`proto.Message.AppStateSyncKeyData.fromObject`, modelled by the opaque
parameter `fromObject` (the protobuf code is not part of the source
tree). -/
def getKeys (fromObject : JVal → JVal) (fs : FS) (folder : List String)
    (ty : String) (ids : List String) : List (String × JVal) :=
  ids.map fun id =>
    let v := readData fs folder (keyFileName ty id)
    (id, if ty = "app-state-sync-key" && jsTruthy v then fromObject v else v)

/-! ## Initialization (`useMultiFileAuthState`, lines 89-100) -/

/-- Path `p` is the folder itself or one of its ancestors. -/
def isAncestorOf (p folder : List String) : Bool :=
  decide (p = folder.take p.length)

/-- The call `mkdir(folder, { recursive: true })`: the folder and every missing
parent become directories; nothing else changes. -/
def mkdirRecursive (fs : FS) (folder : List String) : FS :=
  { fs with stat := fun p => if isAncestorOf p folder then .dir else fs.stat p }

/-- The initialization portion of `useMultiFileAuthState` (lines 89-100):
stat the folder, fail on a non-directory, create it recursively when
missing, then load the credential bundle with
`(await readData(credFileName)) || initAuthCreds()`.  `initAuthCreds` is
external to the source tree and modelled as the opaque parameter
`defaultCreds`. -/
def initAuthState (defaultCreds : JVal) (fs : FS) (folder : List String)
    (name : Option String) : FS × Except IOErr JVal :=
  let credFile := sanitizeName name ++ ".json"
  match fs.stat folder with
  | .file => (fs, .error .notDir)
  | .dir =>
    let v := readData fs folder credFile
    (fs, .ok (if jsTruthy v then v else defaultCreds))
  | .missing =>
    let fs' := mkdirRecursive fs folder
    let v := readData fs' folder credFile
    (fs', .ok (if jsTruthy v then v else defaultCreds))

/-! ## File lock model

Modelled from the spec: the per-path mutual-exclusion lock obtained by
`getFileLock(filePath)` in `writeData`/`readData`/`removeData` is not part
of the source tree.  Per spec section 4.2 it is a reusable lock per
normalized path whose `acquire` suspends the caller in an unbounded FIFO
wait queue and whose `release` wakes the next waiter in arrival order.
The model is a state machine over traces of request / grant / release
events; an operation touches the filesystem exactly while it holds the
lock of its path. -/

/-- Lock events: operation `i` requests the lock of path `p`, is granted
it, or releases it. -/
inductive LockEv where
  | req (i : Nat) (p : List String)
  | grant (i : Nat) (p : List String)
  | rel (i : Nat) (p : List String)

/-- Lock-manager state: the path each operation has requested, the FIFO
wait queue of each path, and the operations currently holding each path
(kept as a list so that mutual exclusion is a proved invariant, not a
typing artifact). -/
structure LockSt where
  reqPath : Nat → Option (List String)
  queue : List String → List Nat
  holder : List String → List Nat

/-- Initial lock-manager state: no requests, empty queues, no holders. -/
def initLockSt : LockSt :=
  { reqPath := fun _ => none, queue := fun _ => [], holder := fun _ => [] }

/-- One step of the lock manager.  A request enqueues at the back of its
path's queue; a grant requires the path to be free and the operation to
be at the front of the queue; a release requires ownership. -/
def lockStep (s : LockSt) : LockEv → Option LockSt
  | .req i p =>
    match s.reqPath i with
    | some _ => none
    | none =>
      some { s with
        reqPath := fun j => if j = i then some p else s.reqPath j
        queue := fun q => if q = p then s.queue p ++ [i] else s.queue q }
  | .grant i p =>
    if s.holder p = [] ∧ (s.queue p).head? = some i then
      some { s with
        holder := fun q => if q = p then [i] else s.holder q
        queue := fun q => if q = p then (s.queue p).tail else s.queue q }
    else none
  | .rel i p =>
    if s.holder p = [i] then
      some { s with holder := fun q => if q = p then [] else s.holder q }
    else none

/-- Run a trace of lock events from a given state; `none` on an invalid
trace. -/
def runLockFrom (s : LockSt) : List LockEv → Option LockSt
  | [] => some s
  | e :: evs =>
    match lockStep s e with
    | none => none
    | some s1 => runLockFrom s1 evs

/-- Run a trace of lock events from the initial state. -/
def runLock (evs : List LockEv) : Option LockSt :=
  runLockFrom initLockSt evs

/-- The operations that requested path `p`, in trace order. -/
def reqsOf (evs : List LockEv) (p : List String) : List Nat :=
  evs.filterMap fun e =>
    match e with
    | .req i q => if q = p then some i else none
    | _ => none

/-- The operations that were granted path `p`, in trace order. -/
def grantsOf (evs : List LockEv) (p : List String) : List Nat :=
  evs.filterMap fun e =>
    match e with
    | .grant i q => if q = p then some i else none
    | _ => none

/-- All grants of the trace, across every path, in trace order. -/
def grantSeq (evs : List LockEv) : List Nat :=
  evs.filterMap fun e =>
    match e with
    | .grant i _ => some i
    | _ => none

/-! ## Concrete fixtures -/

/-- An empty, error-free session directory. -/
def fsPlain : FS :=
  { files := fun _ => none, readErr := fun _ => false, writeErr := fun _ => false,
    unlinkErr := fun _ => false, stat := fun _ => .dir }

/-- A directory holding `d/f` whose unlink fails with an I/O error. -/
def fsUnlinkErr : FS :=
  { files := fun p => if p = ["d", "f"] then some (.tree .null) else none,
    readErr := fun _ => false, writeErr := fun _ => false,
    unlinkErr := fun p => p = ["d", "f"], stat := fun _ => .dir }

/-- A directory where writing `d/f` fails with an I/O error. -/
def fsWriteErr : FS :=
  { files := fun _ => none, readErr := fun _ => false,
    writeErr := fun p => p = ["d", "f"], unlinkErr := fun _ => false,
    stat := fun _ => .dir }

/-- A directory holding a record file `d/c-i.json`. -/
def fsCI : FS :=
  { files := fun p => if p = ["d", "c-i.json"] then some (.tree (.bool true)) else none,
    readErr := fun _ => false, writeErr := fun _ => false,
    unlinkErr := fun _ => false, stat := fun _ => .dir }

/-- A directory whose credential file `d/auth.json` holds the serialized
tree `w`. -/
def fsWithCred (w : JVal) : FS :=
  { files := fun p => if p = ["d", "auth.json"] then some (.tree w) else none,
    readErr := fun _ => false, writeErr := fun _ => false,
    unlinkErr := fun _ => false, stat := fun _ => .dir }

/-- A filesystem whose path `["d"]` is occupied by a plain file. -/
def fsOccupied : FS :=
  { files := fun _ => none, readErr := fun _ => false, writeErr := fun _ => false,
    unlinkErr := fun _ => false,
    stat := fun p => if p = ["d"] then .file else .missing }

/-- A plain object that is textually identical to the tagged buffer
encoding (`{"type": "Buffer", "data": ""}`) without being a buffer. -/
def jTagLiteral : JVal :=
  .obj [("type", .str "Buffer"), ("data", .str "")]

/-- Extract the resulting filesystem of a fallible operation, keeping the
old one on failure. -/
def orElseFS (r : Except IOErr FS) (fs : FS) : FS :=
  match r with
  | .ok fs1 => fs1
  | .error _ => fs

/-- Two operations on distinct paths, path "a" granted first. -/
def demoAB1 : List LockEv :=
  [.req 0 ["a"], .req 1 ["b"], .grant 0 ["a"], .grant 1 ["b"]]

/-- The same two requests, path "b" granted first. -/
def demoAB2 : List LockEv :=
  [.req 0 ["a"], .req 1 ["b"], .grant 1 ["b"], .grant 0 ["a"]]

/-- The lock state reached by `demoAB1`. -/
def stateAB1 : LockSt :=
  (runLock demoAB1).getD initLockSt

/-! ## Theorems -/

theorem charToSextet_sextetToChar {n : Nat} (h : n < 64) :
    charToSextet (sextetToChar n) = n := by
  have : ∀ m < 64, charToSextet (sextetToChar m) = m := by decide
  exact this n h

theorem sextetToChar_ne_pad {n : Nat} (h : n < 64) : sextetToChar n ≠ '=' := by
  have : ∀ m < 64, sextetToChar m ≠ '=' := by decide
  exact this n h

/-- Decoding inverts encoding on every byte sequence. -/
theorem b64Decode_b64Encode (bs : List Nat) (h : ∀ b ∈ bs, b < 256) :
    b64Decode (b64Encode bs) = bs := by
  induction bs using b64Encode.induct with
  | case1 a b c rest ih =>
    have ha : a < 256 := h a (by simp)
    have hb : b < 256 := h b (by simp)
    have hc : c < 256 := h c (by simp)
    rw [b64Encode, b64Decode]
    rw [if_neg (sextetToChar_ne_pad (by omega))]
    rw [charToSextet_sextetToChar (by omega), charToSextet_sextetToChar (by omega),
        charToSextet_sextetToChar (by omega), charToSextet_sextetToChar (by omega)]
    rw [ih (fun x hx => h x (by simp [hx]))]
    congr 1 <;> [skip; congr 1] <;> [omega; omega; (congr 1; omega)]
  | case2 a b =>
    have ha : a < 256 := h a (by simp)
    have hb : b < 256 := h b (by simp)
    rw [b64Encode, b64Decode]
    rw [if_pos rfl, if_neg (sextetToChar_ne_pad (by omega))]
    rw [charToSextet_sextetToChar (by omega), charToSextet_sextetToChar (by omega),
        charToSextet_sextetToChar (by omega)]
    congr 1 <;> [omega; (congr 1; omega)]
  | case3 a =>
    have ha : a < 256 := h a (by simp)
    rw [b64Encode, b64Decode, if_pos rfl, if_pos rfl]
    rw [charToSextet_sextetToChar (by omega), charToSextet_sextetToChar (by omega)]
    congr 1
    omega
  | case4 => rfl

/-! ## Round trip of the replacer/reviver pair -/

/-- The replacer maps no other node to a string, so encoding cannot
manufacture the tagged buffer form out of an object that does not
already have it. -/
theorem tagData_encodeF (fs : List (String × JVal)) (h : tagData fs = none) :
    tagData (encodeF fs) = none := by
  match fs with
  | [] => simp [encodeF, tagData]
  | [(k1, v1)] => cases v1 <;> simp [encodeF, encodeJ, tagData]
  | (k1, v1) :: (k2, v2) :: x :: rest =>
    cases v1 <;> cases v2 <;> simp [encodeF, encodeJ, tagData]
  | [(k1, v1), (k2, v2)] =>
    cases v1 <;> cases v2 <;> simp_all [encodeF, encodeJ, tagData]

mutual

/-- The reviver inverts the replacer on every clean value. -/
theorem decodeJ_encodeJ (v : JVal) (h : cleanJ v = true) :
    decodeJ (encodeJ v) = v := by
  match v with
  | .null => simp [encodeJ, decodeJ]
  | .bool b => simp [encodeJ, decodeJ]
  | .num n => simp [encodeJ, decodeJ]
  | .str s => simp [encodeJ, decodeJ]
  | .arr xs =>
    rw [cleanJ] at h
    rw [encodeJ, decodeJ, decodeL_encodeL xs h]
  | .obj fs =>
    rw [cleanJ, Bool.and_eq_true] at h
    have h1 : tagData fs = none := by
      cases ht : tagData fs
      · rfl
      · rw [ht] at h; exact absurd h.1 (by simp)
    rw [encodeJ, decodeJ, tagData_encodeF fs h1, decodeF_encodeF fs h.2]
  | .buf bs =>
    rw [cleanJ] at h
    have hb : ∀ b ∈ bs, b < 256 := by
      intro b hbb
      simpa using List.all_eq_true.mp h b hbb
    rw [encodeJ, decodeJ]
    simp [tagData, b64Decode_b64Encode bs hb]

/-- The reviver inverts the replacer on the elements of a clean array. -/
theorem decodeL_encodeL (xs : List JVal) (h : cleanL xs = true) :
    decodeL (encodeL xs) = xs := by
  match xs with
  | [] => simp [encodeL, decodeL]
  | x :: rest =>
    rw [cleanL, Bool.and_eq_true] at h
    rw [encodeL, decodeL, decodeJ_encodeJ x h.1, decodeL_encodeL rest h.2]

/-- The reviver inverts the replacer on the fields of a clean object. -/
theorem decodeF_encodeF (fs : List (String × JVal)) (h : cleanF fs = true) :
    decodeF (encodeF fs) = fs := by
  match fs with
  | [] => simp [encodeF, decodeF]
  | (k, v) :: rest =>
    rw [cleanF, Bool.and_eq_true] at h
    rw [encodeF, decodeF, decodeJ_encodeJ v h.1, decodeF_encodeF rest h.2]

end

theorem runLockFrom_nil (s : LockSt) : runLockFrom s [] = some s := rfl

/-- Mutual exclusion is preserved along every valid trace: each path has
at most one holder at every moment. -/
theorem holder_le_one_from (evs : List LockEv) (s0 s : LockSt)
    (h0 : ∀ p, (s0.holder p).length ≤ 1) (h : runLockFrom s0 evs = some s) :
    ∀ p, (s.holder p).length ≤ 1 := by
  induction evs generalizing s0 with
  | nil =>
    rw [runLockFrom_nil, Option.some_inj] at h
    exact h ▸ h0
  | cons e evs ih =>
    rw [runLockFrom] at h
    cases he : lockStep s0 e with
    | none => rw [he] at h; exact absurd h (by simp)
    | some s1 =>
      rw [he] at h
      refine ih s1 ?_ h
      intro p
      cases e with
      | req i q =>
        rw [lockStep] at he
        cases hr : s0.reqPath i with
        | some _ => rw [hr] at he; exact absurd he (by simp)
        | none =>
          rw [hr, Option.some_inj] at he
          exact he ▸ h0 p
      | grant i q =>
        rw [lockStep] at he
        by_cases hc : s0.holder q = [] ∧ (s0.queue q).head? = some i
        · rw [if_pos hc, Option.some_inj] at he
          subst he
          by_cases hpq : p = q <;> simp [hpq, h0 p]
        · rw [if_neg hc] at he; exact absurd he (by simp)
      | rel i q =>
        rw [lockStep] at he
        by_cases hc : s0.holder q = [i]
        · rw [if_pos hc, Option.some_inj] at he
          subst he
          by_cases hpq : p = q <;> simp [hpq, h0 p]
        · rw [if_neg hc] at he; exact absurd he (by simp)

theorem reqsOf_cons_req (i : Nat) (q p : List String) (evs : List LockEv) :
    reqsOf (.req i q :: evs) p = (if q = p then [i] else []) ++ reqsOf evs p := by
  by_cases hq : q = p <;> simp [reqsOf, List.filterMap_cons, hq]

theorem reqsOf_cons_grant (i : Nat) (q p : List String) (evs : List LockEv) :
    reqsOf (.grant i q :: evs) p = reqsOf evs p := by
  simp [reqsOf, List.filterMap_cons]

theorem reqsOf_cons_rel (i : Nat) (q p : List String) (evs : List LockEv) :
    reqsOf (.rel i q :: evs) p = reqsOf evs p := by
  simp [reqsOf, List.filterMap_cons]

theorem grantsOf_cons_req (i : Nat) (q p : List String) (evs : List LockEv) :
    grantsOf (.req i q :: evs) p = grantsOf evs p := by
  simp [grantsOf, List.filterMap_cons]

theorem grantsOf_cons_grant (i : Nat) (q p : List String) (evs : List LockEv) :
    grantsOf (.grant i q :: evs) p = (if q = p then [i] else []) ++ grantsOf evs p := by
  by_cases hq : q = p <;> simp [grantsOf, List.filterMap_cons, hq]

theorem grantsOf_cons_rel (i : Nat) (q p : List String) (evs : List LockEv) :
    grantsOf (.rel i q :: evs) p = grantsOf evs p := by
  simp [grantsOf, List.filterMap_cons]

/-- FIFO bookkeeping along every valid trace: for each path, the requests
seen so far are exactly the grants so far followed by the current wait
queue, in order. -/
theorem fifo_from (evs : List LockEv) (s0 s : LockSt)
    (h : runLockFrom s0 evs = some s) (p : List String) :
    grantsOf evs p ++ s.queue p = s0.queue p ++ reqsOf evs p := by
  induction evs generalizing s0 with
  | nil =>
    rw [runLockFrom_nil, Option.some_inj] at h
    subst h
    simp [grantsOf, reqsOf]
  | cons e evs ih =>
    rw [runLockFrom] at h
    cases he : lockStep s0 e with
    | none => rw [he] at h; exact absurd h (by simp)
    | some s1 =>
      rw [he] at h
      have ih1 := ih s1 h
      cases e with
      | req i q =>
        rw [lockStep] at he
        cases hr : s0.reqPath i with
        | some _ => rw [hr] at he; exact absurd he (by simp)
        | none =>
          rw [hr, Option.some_inj] at he
          rw [reqsOf_cons_req, grantsOf_cons_req, ih1, ← he]
          by_cases hq : q = p
          · subst hq; simp
          · have : ¬p = q := fun hh => hq hh.symm
            simp [this, hq]
      | grant i q =>
        rw [lockStep] at he
        by_cases hc : s0.holder q = [] ∧ (s0.queue q).head? = some i
        · rw [if_pos hc, Option.some_inj] at he
          have hq0 : s0.queue q = i :: (s0.queue q).tail := by
            cases hl : s0.queue q with
            | nil => rw [hl] at hc; exact absurd hc.2 (by simp)
            | cons a t =>
              rw [hl] at hc
              have ha : a = i := by simpa using hc.2
              simp [ha]
          rw [reqsOf_cons_grant, grantsOf_cons_grant, List.append_assoc, ih1, ← he]
          by_cases hq : q = p
          · subst hq
            simp only [if_pos rfl]
            conv_rhs => rw [hq0]
            simp
          · have : ¬p = q := fun hh => hq hh.symm
            simp [this, hq]
        · rw [if_neg hc] at he; exact absurd he (by simp)
      | rel i q =>
        rw [lockStep] at he
        by_cases hc : s0.holder q = [i]
        · rw [if_pos hc, Option.some_inj] at he
          rw [reqsOf_cons_rel, grantsOf_cons_rel, ih1, ← he]
        · rw [if_neg hc] at he; exact absurd he (by simp)

/-! ## Properties of the path sanitizer -/

theorem sanitizeNameL_props (input : Option (List Char)) :
    (sanitizeNameL input).length ≤ 8 ∧
    (∀ c ∈ sanitizeNameL input, isWordChar c = true) ∧
    sanitizeNameL input ≠ [] := by
  rw [sanitizeNameL]
  set f := (collapseWs (baseOf input) false).filter isWordChar with hf
  set t := if f.length > 8 then f.take 8 else f with ht
  have htlen : t.length ≤ 8 := by
    rw [ht]
    split
    · simp
    · omega
  have htmem : ∀ c ∈ t, isWordChar c = true := by
    intro c hc
    have hcf : c ∈ f := by
      rw [ht] at hc
      split at hc
      · exact List.take_subset 8 f hc
      · exact hc
    exact (List.mem_filter.mp hcf).2
  by_cases hte : t = []
  · rw [if_pos hte]
    refine ⟨by decide, by decide, by decide⟩
  · rw [if_neg hte]
    exact ⟨htlen, htmem, hte⟩

theorem jsTrim_all_space {s : List Char} (h : ∀ c ∈ s, isJsSpace c = true) :
    jsTrim s = [] := by
  rw [jsTrim]
  have h1 : s.dropWhile isJsSpace = [] := List.dropWhile_eq_nil_iff.mpr h
  rw [h1]
  rfl

theorem sanitizeName_eq_mk (input : Option String) :
    sanitizeName input = String.mk (sanitizeNameL (input.map String.data)) := rfl

/-! ## Claim theorems -/

/-- C7: `sanitizeName` yields `"auth"` for absent and for whitespace-only
input, and for every input its output has length at most 8, consists only
of characters in `[A-Za-z0-9_]`, and is non-empty. -/
theorem claim_C7_sanitizeName (input : Option String) (s : String)
    (hs : ∀ c ∈ s.data, isJsSpace c = true) :
    sanitizeName none = "auth" ∧
    sanitizeName (some s) = "auth" ∧
    sanitizeName (some "") = "auth" ∧
    (sanitizeName input).length ≤ 8 ∧
    (∀ c ∈ (sanitizeName input).data, isWordChar c = true) ∧
    sanitizeName input ≠ "" := by
  have hp := sanitizeNameL_props (input.map String.data)
  refine ⟨by decide, ?_, by decide, hp.1, hp.2.1, ?_⟩
  · rw [sanitizeName_eq_mk]
    show String.mk (sanitizeNameL (some s.data)) = "auth"
    rw [sanitizeNameL, baseOf]
    simp only [jsTrim_all_space hs]
    decide
  · intro hc
    have : sanitizeNameL (input.map String.data) = [] :=
      congrArg String.data hc
    exact hp.2.2 this

/-- Witness for C7 at a whitespace-only string and an input with spaces
and punctuation. -/
theorem claim_C7_sanitizeName_witness :
    sanitizeName none = "auth" ∧
    sanitizeName (some " \t ") = "auth" ∧
    sanitizeName (some "") = "auth" ∧
    (sanitizeName (some "my session/1:A!")).length ≤ 8 ∧
    (∀ c ∈ (sanitizeName (some "my session/1:A!")).data, isWordChar c = true) ∧
    sanitizeName (some "my session/1:A!") ≠ "" :=
  claim_C7_sanitizeName (some "my session/1:A!") " \t " (by decide)

theorem fixFileName_append (s t : String) :
    fixFileName (s ++ t) = fixFileName s ++ fixFileName t := by
  have : (fixFileName (s ++ t)).data = (fixFileName s ++ fixFileName t).data := by
    simp [fixFileName, replaceSlash, replaceColon, String.data_append]
  cases hs : fixFileName (s ++ t)
  cases ht : fixFileName s ++ fixFileName t
  rw [hs, ht] at this
  exact congrArg String.mk (by simpa using this)

/-- C9: the keyed-record file name is the whole composed name
`<category>-<id>.json` with every `/` replaced by `__` and every `:`
replaced by `-`; the whole-name and per-segment readings agree because
the substitution distributes over concatenation and leaves `-` and
`.json` unchanged; `"a/b"` becomes `a__b` and `:` becomes `-`. -/
theorem claim_C9_fixFileName (category id : String) (folder : List String) :
    filePathOf folder (keyFileName category id) =
      folder ++ [fixFileName (category ++ "-" ++ id ++ ".json")] ∧
    fixFileName (category ++ "-" ++ id ++ ".json") =
      fixFileName category ++ "-" ++ fixFileName id ++ ".json" ∧
    fixFileName "a/b" = "a__b" ∧
    fixFileName ":" = "-" := by
  refine ⟨rfl, ?_, by decide, by decide⟩
  rw [fixFileName_append, fixFileName_append, fixFileName_append]
  have h1 : fixFileName "-" = "-" := by decide
  have h2 : fixFileName ".json" = ".json" := by decide
  rw [h1, h2]

/-- C3: `readData` collapses every failure — missing file, read error
such as a permission problem, malformed content — to `null`, never
propagating an error (its return type is a plain value), and returns the
parsed, revived value when the file exists and parses. -/
theorem claim_C3_readData (fs : FS) (folder : List String) (file : String) :
    (fs.files (filePathOf folder file) = none →
      readData fs folder file = .null) ∧
    (fs.readErr (filePathOf folder file) = true →
      readData fs folder file = .null) ∧
    (∀ s, fs.readErr (filePathOf folder file) = false →
      fs.files (filePathOf folder file) = some (.raw s) →
      readData fs folder file = .null) ∧
    (∀ v, fs.readErr (filePathOf folder file) = false →
      fs.files (filePathOf folder file) = some (.tree v) →
      readData fs folder file = decodeJ v) := by
  refine ⟨?_, ?_, ?_, ?_⟩
  · intro h
    rw [readData, readFileFs]
    cases hre : fs.readErr (filePathOf folder file) <;> simp [h]
  · intro h
    rw [readData, readFileFs]
    simp [h]
  · intro s hre h
    rw [readData, readFileFs]
    simp [h, hre, parseContent]
  · intro v hre h
    rw [readData, readFileFs]
    simp [h, hre, parseContent]

/-- Witness for C3: on the empty directory a read of a missing file is
`null`, on a malformed file it is `null`, and on a stored tree it is the
revived value. -/
theorem claim_C3_readData_witness :
    readData fsPlain ["d"] "f" = .null ∧
    readData fsCI ["d"] "missing.json" = .null ∧
    readData fsCI ["d"] "c-i.json" = decodeJ (.bool true) :=
  ⟨(claim_C3_readData fsPlain ["d"] "f").1 rfl,
   (claim_C3_readData fsCI ["d"] "missing.json").1 rfl,
   (claim_C3_readData fsCI ["d"] "c-i.json").2.2.2 (.bool true) rfl rfl⟩

/-- C4 counterexample: the claim says a remove hitting an I/O error other
than non-existence fails with that error, but `removeData`'s inner bare
`catch {}` swallows it: on a filesystem where unlinking `d/f` fails with
an I/O error while the file exists, the unlink reports the error yet
`removeData` reports success and leaves the file in place. -/
theorem claim_C4_counterexample :
    unlinkFs fsUnlinkErr ["d", "f"] = .error .eio ∧
    removeData fsUnlinkErr ["d"] "f" = .ok fsUnlinkErr ∧
    fsUnlinkErr.files ["d", "f"] = some (.tree .null) := by
  refine ⟨?_, ?_, ?_⟩
  · rw [unlinkFs]
    simp [fsUnlinkErr]
  · rw [removeData]
    have h : unlinkFs fsUnlinkErr (filePathOf ["d"] "f") = .error .eio := by
      rw [unlinkFs]
      simp [fsUnlinkErr, filePathOf, fixFileName, replaceSlash, replaceColon]
    rw [h]
  · simp [fsUnlinkErr]

/-- C4 amended: every write failure propagates to the immediate caller of
`writeData`, but no remove failure ever propagates: `removeData` swallows
every unlink error (not only removal of a non-existent file) and always
reports success. -/
theorem claim_C4_errorPropagation (fs : FS) (folder : List String)
    (data : JVal) (file : String)
    (hw : fs.writeErr (filePathOf folder file) = true) :
    writeData fs folder data file = .error .eio ∧
    (∃ fs1, removeData fs folder file = .ok fs1) := by
  constructor
  · rw [writeData, writeFileFs, if_pos hw]
  · rw [removeData]
    cases unlinkFs fs (filePathOf folder file) with
    | error e => exact ⟨fs, rfl⟩
    | ok fs1 => exact ⟨fs1, rfl⟩

/-- Witness for C4: a failing write on `d/f` surfaces the I/O error, and
a remove on the same path of `fsUnlinkErr` still reports success. -/
theorem claim_C4_errorPropagation_witness :
    writeData fsWriteErr ["d"] .null "f" = .error .eio ∧
    (∃ fs1, removeData fsWriteErr ["d"] "f" = .ok fs1) :=
  claim_C4_errorPropagation fsWriteErr ["d"] .null "f" (by decide)

/-- C2 counterexample: the claim's round trip fails on the value
`{"type": "Buffer", "data": ""}`: the write succeeds, but reading it back
yields the buffer `[]`, not the original plain object, because the
reviver cannot distinguish a literal object of the tagged shape from an
encoded binary payload. -/
theorem claim_C2_counterexample :
    (writeData fsPlain ["d"] jTagLiteral "f").isOk = true ∧
    readData (orElseFS (writeData fsPlain ["d"] jTagLiteral "f") fsPlain) ["d"] "f" =
      .buf [] ∧
    JVal.buf [] ≠ jTagLiteral := by
  have hw : writeData fsPlain ["d"] jTagLiteral "f" =
      .ok { fsPlain with
        files := fun q =>
          if q = filePathOf ["d"] "f" then some (.tree (encodeJ jTagLiteral))
          else fsPlain.files q } := by
    rw [writeData, writeFileFs, if_neg (by simp [fsPlain])]
  have henc : encodeJ jTagLiteral = jTagLiteral := by
    simp [jTagLiteral, encodeJ, encodeF]
  refine ⟨by rw [hw]; rfl, ?_, by simp [jTagLiteral]⟩
  rw [hw]
  rw [orElseFS, readData, readFileFs]
  simp only [fsPlain, Bool.false_eq_true, if_false, if_pos rfl]
  simp only [parseContent]
  rw [henc]
  simp [jTagLiteral, decodeJ, tagData, b64Decode]

/-- C2 amended: for every value that is clean — its buffers hold bytes
and none of its plain objects is literally the tagged encoding shape —
writing with `writeData` and reading back with `readData` returns an
equal value, and the base64 byte encoder/decoder pair is a round-trip
identity on all byte sequences. -/
theorem claim_C2_roundTrip (fs : FS) (folder : List String) (v : JVal)
    (file : String) (hv : cleanJ v = true)
    (hw : fs.writeErr (filePathOf folder file) = false)
    (hr : fs.readErr (filePathOf folder file) = false) :
    (∃ fs1, writeData fs folder v file = .ok fs1 ∧
      readData fs1 folder file = v) ∧
    (∀ bs : List Nat, (∀ b ∈ bs, b < 256) → b64Decode (b64Encode bs) = bs) := by
  refine ⟨?_, fun bs hb => b64Decode_b64Encode bs hb⟩
  refine ⟨_, by rw [writeData, writeFileFs, if_neg (by simp [hw])], ?_⟩
  rw [readData, readFileFs]
  simp [hr, parseContent, decodeJ_encodeJ v hv]

/-- Witness for C2 at a nested value holding a binary payload. -/
theorem claim_C2_roundTrip_witness :
    (∃ fs1, writeData fsPlain ["d"] (.obj [("k", .buf [0, 255, 10, 7])]) "f" = .ok fs1 ∧
      readData fs1 ["d"] "f" = .obj [("k", .buf [0, 255, 10, 7])]) ∧
    (∀ bs : List Nat, (∀ b ∈ bs, b < 256) → b64Decode (b64Encode bs) = bs) :=
  claim_C2_roundTrip fsPlain ["d"] (.obj [("k", .buf [0, 255, 10, 7])]) "f"
    (by simp [cleanJ, cleanF, cleanL, tagData]) rfl rfl

/-- C5 counterexample: the claim says a write is dispatched exactly when
the value is non-null, but `keys.set` tests JavaScript truthiness
(`value ? writeData : removeData`): for the non-null value `false` it
dispatches a remove, and the record file is deleted rather than
written. -/
theorem claim_C5_counterexample :
    setTasks [("c", [("i", JVal.bool false)])] = [FileOp.remove "c-i.json"] ∧
    JVal.bool false ≠ JVal.null ∧
    (setKeys fsCI ["d"] [("c", [("i", JVal.bool false)])]).1.files
      ["d", "c-i.json"] = none := by
  refine ⟨by rfl, by simp, ?_⟩
  simp [setKeys, setTasks, runTasks, runTask, removeData, unlinkFs, fsCI,
    filePathOf, fixFileName, replaceSlash, replaceColon, keyFileName, jsTruthy]

/-- C5 amended: for each present `(category, id, value)` triple,
`keys.set` dispatches a write of the value to `<category>-<id>.json`
exactly when the value is truthy and a remove of that file exactly when
it is falsy (`null`, `false`, `0`, `""`); a single-triple `set` leaves
the file holding the serialized value in the truthy case and leaves it
absent in the falsy case, completing with no error. -/
theorem claim_C5_setDispatch (updates : List (String × List (String × JVal)))
    (cat : String) (entries : List (String × JVal)) (id : String) (v : JVal)
    (hcat : (cat, entries) ∈ updates) (hid : (id, v) ∈ entries)
    (fs : FS) (folder : List String) :
    ((if jsTruthy v then FileOp.write (keyFileName cat id) v
      else FileOp.remove (keyFileName cat id)) ∈ setTasks updates) ∧
    (jsTruthy v = true →
      fs.writeErr (filePathOf folder (keyFileName cat id)) = false →
      (setKeys fs folder [(cat, [(id, v)])]).1.files
        (filePathOf folder (keyFileName cat id)) = some (.tree (encodeJ v)) ∧
      (setKeys fs folder [(cat, [(id, v)])]).2 = none) ∧
    (jsTruthy v = false →
      fs.unlinkErr (filePathOf folder (keyFileName cat id)) = false →
      (setKeys fs folder [(cat, [(id, v)])]).1.files
        (filePathOf folder (keyFileName cat id)) = none ∧
      (setKeys fs folder [(cat, [(id, v)])]).2 = none) := by
  refine ⟨?_, ?_, ?_⟩
  · rw [setTasks]
    refine List.mem_flatMap.mpr ⟨(cat, entries), hcat, ?_⟩
    exact List.mem_map.mpr ⟨(id, v), hid, rfl⟩
  · intro ht hw
    rw [setKeys, setTasks]
    simp only [List.flatMap_cons, List.map_cons, List.map_nil,
      List.flatMap_nil, List.append_nil, ht, if_true]
    rw [runTasks, runTask, writeData, writeFileFs, if_neg (by simp [hw])]
    simp [runTasks]
  · intro ht hu
    rw [setKeys, setTasks]
    simp only [List.flatMap_cons, List.map_cons, List.map_nil,
      List.flatMap_nil, List.append_nil, ht, Bool.false_eq_true, if_false]
    rw [runTasks, runTask, removeData, unlinkFs, if_neg (by simp [hu])]
    cases hf : fs.files (filePathOf folder (keyFileName cat id)) with
    | none => simp [runTasks, hf]
    | some c => simp [runTasks]

/-- Witness for C5 at the single falsy update `{c: {i: null}}` against a
directory holding `d/c-i.json`. -/
theorem claim_C5_setDispatch_witness :
    ((if jsTruthy JVal.null then FileOp.write (keyFileName "c" "i") JVal.null
      else FileOp.remove (keyFileName "c" "i")) ∈
        setTasks [("c", [("i", JVal.null)])]) ∧
    (jsTruthy JVal.null = true →
      fsCI.writeErr (filePathOf ["d"] (keyFileName "c" "i")) = false →
      (setKeys fsCI ["d"] [("c", [("i", JVal.null)])]).1.files
        (filePathOf ["d"] (keyFileName "c" "i")) = some (.tree (encodeJ JVal.null)) ∧
      (setKeys fsCI ["d"] [("c", [("i", JVal.null)])]).2 = none) ∧
    (jsTruthy JVal.null = false →
      fsCI.unlinkErr (filePathOf ["d"] (keyFileName "c" "i")) = false →
      (setKeys fsCI ["d"] [("c", [("i", JVal.null)])]).1.files
        (filePathOf ["d"] (keyFileName "c" "i")) = none ∧
      (setKeys fsCI ["d"] [("c", [("i", JVal.null)])]).2 = none) :=
  claim_C5_setDispatch [("c", [("i", JVal.null)])] "c" [("i", JVal.null)] "i"
    JVal.null (List.mem_singleton.mpr rfl) (List.mem_singleton.mpr rfl) fsCI ["d"]

/-- C6: `set({cat: {id: null}})` followed by `get(cat, {id})` yields
`{id: null}`: the null update removes the record's file (the remove
dispatch succeeds, or finds the file already absent), and the get reports
the id bound to `null`. -/
theorem claim_C6_setNull_get (fs : FS) (folder : List String) (cat id : String)
    (fromObject : JVal → JVal)
    (hu : fs.unlinkErr (filePathOf folder (keyFileName cat id)) = false)
    (hr : fs.readErr (filePathOf folder (keyFileName cat id)) = false) :
    getKeys fromObject (setKeys fs folder [(cat, [(id, JVal.null)])]).1
      folder cat [id] = [(id, JVal.null)] := by
  rw [setKeys, setTasks]
  simp only [List.flatMap_cons, List.map_cons, List.map_nil, List.flatMap_nil,
    List.append_nil, jsTruthy, Bool.false_eq_true, if_false]
  rw [runTasks, runTask, removeData, unlinkFs, if_neg (by simp [hu])]
  cases hf : fs.files (filePathOf folder (keyFileName cat id)) with
  | none =>
    simp [getKeys, readData, readFileFs, runTasks, hr, hf, jsTruthy]
  | some c =>
    simp [getKeys, readData, readFileFs, runTasks, hr, jsTruthy]

/-- Witness for C6 on a directory holding `d/c-i.json`. -/
theorem claim_C6_setNull_get_witness :
    getKeys id (setKeys fsCI ["d"] [("c", [("i", JVal.null)])]).1
      ["d"] "c" ["i"] = [("i", JVal.null)] :=
  claim_C6_setNull_get fsCI ["d"] "c" "i" id rfl rfl

/-- C8: `useMultiFileAuthState` on a path occupied by a non-directory
fails with the descriptive error and changes nothing; on a missing path
it creates the directory and every missing parent recursively without
touching any file; it loads the credential bundle, substituting the
default when the credential file is absent. -/
theorem claim_C8_init (defaultCreds : JVal) (fs : FS) (folder : List String)
    (name : Option String) :
    (fs.stat folder = .file →
      initAuthState defaultCreds fs folder name = (fs, .error .notDir)) ∧
    (fs.stat folder = .missing →
      (initAuthState defaultCreds fs folder name).1 = mkdirRecursive fs folder ∧
      (∀ k, k ≤ folder.length →
        (mkdirRecursive fs folder).stat (folder.take k) = .dir) ∧
      (mkdirRecursive fs folder).files = fs.files) ∧
    (fs.stat folder = .dir →
      fs.files (filePathOf folder (sanitizeName name ++ ".json")) = none →
      initAuthState defaultCreds fs folder name = (fs, .ok defaultCreds)) ∧
    (fs.stat folder = .missing →
      fs.files (filePathOf folder (sanitizeName name ++ ".json")) = none →
      initAuthState defaultCreds fs folder name =
        (mkdirRecursive fs folder, .ok defaultCreds)) := by
  refine ⟨?_, ?_, ?_, ?_⟩
  · intro h
    rw [initAuthState]
    simp [h]
  · intro h
    refine ⟨by rw [initAuthState]; simp [h], ?_, rfl⟩
    intro k hk
    have hl : (folder.take k).length = k := by
      rw [List.length_take]; omega
    have ha : isAncestorOf (folder.take k) folder = true := by
      rw [isAncestorOf, hl]
      simp
    rw [mkdirRecursive]
    simp [ha]
  · intro h hf
    rw [initAuthState]
    have hr : readData fs folder (sanitizeName name ++ ".json") = .null := by
      rw [readData, readFileFs]
      cases hre : fs.readErr (filePathOf folder (sanitizeName name ++ ".json")) <;>
        simp [hf]
    simp [h, hr, jsTruthy]
  · intro h hf
    rw [initAuthState]
    have hf1 : (mkdirRecursive fs folder).files
        (filePathOf folder (sanitizeName name ++ ".json")) = none := hf
    have hr : readData (mkdirRecursive fs folder) folder
        (sanitizeName name ++ ".json") = .null := by
      rw [readData, readFileFs]
      cases hre : (mkdirRecursive fs folder).readErr
          (filePathOf folder (sanitizeName name ++ ".json")) <;>
        simp [hf1]
    simp [h, hr, jsTruthy]

/-- Witness for C8: with a file occupying `d`, initialization fails and
returns the filesystem unchanged; on an empty directory it yields the
default bundle. -/
theorem claim_C8_init_witness :
    initAuthState (.num 7) fsOccupied ["d"] none = (fsOccupied, .error .notDir) ∧
    initAuthState (.num 7) fsPlain ["d"] none = (fsPlain, .ok (.num 7)) :=
  ⟨(claim_C8_init (.num 7) fsOccupied ["d"] none).1 (by decide),
   (claim_C8_init (.num 7) fsPlain ["d"] none).2.2.1 rfl rfl⟩

/-- The credential load on a directory whose credential file stores the
tree `w` yields `decodeJ w` when truthy and the default otherwise. -/
theorem initAuthState_fsWithCred (defaultCreds w : JVal) :
    initAuthState defaultCreds (fsWithCred w) ["d"] none =
      (fsWithCred w,
        .ok (if jsTruthy (decodeJ w) then decodeJ w else defaultCreds)) := by
  have hc : sanitizeName none ++ ".json" = "auth.json" := by decide
  rw [initAuthState, hc]
  have hp : filePathOf ["d"] "auth.json" = ["d", "auth.json"] := by decide
  have hr : readData (fsWithCred w) ["d"] "auth.json" = decodeJ w := by
    rw [readData, hp, readFileFs]
    simp [fsWithCred, parseContent]
  simp only [show (fsWithCred w).stat ["d"] = PathStat.dir from rfl]
  rw [hr]

/-- C10: at initialization the default credential bundle is substituted
whenever the stored bundle deserializes to a falsy value — a credential
file holding valid JSON for `null`, `false`, `0` or `""` is silently
replaced by the default, while a truthy stored bundle is kept. -/
theorem claim_C10_falsyCreds (defaultCreds w : JVal)
    (hw : jsTruthy (decodeJ w) = false) :
    initAuthState defaultCreds (fsWithCred w) ["d"] none =
      (fsWithCred w, .ok defaultCreds) ∧
    initAuthState defaultCreds (fsWithCred .null) ["d"] none =
      (fsWithCred .null, .ok defaultCreds) ∧
    initAuthState defaultCreds (fsWithCred (.bool false)) ["d"] none =
      (fsWithCred (.bool false), .ok defaultCreds) ∧
    initAuthState defaultCreds (fsWithCred (.num 0)) ["d"] none =
      (fsWithCred (.num 0), .ok defaultCreds) ∧
    initAuthState defaultCreds (fsWithCred (.str "")) ["d"] none =
      (fsWithCred (.str ""), .ok defaultCreds) ∧
    (∀ v, jsTruthy (decodeJ v) = true →
      initAuthState defaultCreds (fsWithCred v) ["d"] none =
        (fsWithCred v, .ok (decodeJ v))) := by
  refine ⟨?_, ?_, ?_, ?_, ?_, ?_⟩
  · rw [initAuthState_fsWithCred]; simp [hw]
  · rw [initAuthState_fsWithCred]; simp [decodeJ, jsTruthy]
  · rw [initAuthState_fsWithCred]; simp [decodeJ, jsTruthy]
  · rw [initAuthState_fsWithCred]; simp [decodeJ, jsTruthy]
  · rw [initAuthState_fsWithCred]; simp [decodeJ, jsTruthy]
  · intro v hv
    rw [initAuthState_fsWithCred]
    simp [hv]

/-- Witness for C10 at a stored `false`. -/
theorem claim_C10_falsyCreds_witness :
    initAuthState (.num 7) (fsWithCred (.bool false)) ["d"] none =
      (fsWithCred (.bool false), .ok (.num 7)) :=
  (claim_C10_falsyCreds (.num 7) (.bool false) (by simp [decodeJ, jsTruthy])).1

/-- C1: each path's lock admits at most one holder at a time along every
valid trace (read/write/delete touch the filesystem only while holding
the lock of their path), grants on each path follow the FIFO order of the
acquisition requests (the grants so far, followed by the current wait
queue, equal the requests so far in order), and operations on distinct
paths are unordered: the same two requests on paths `a` and `b` admit
valid executions granting them in either order. -/
theorem claim_C1_lockSerialization :
    (∀ evs s, runLock evs = some s → ∀ p, (s.holder p).length ≤ 1) ∧
    (∀ evs s, runLock evs = some s → ∀ p,
      grantsOf evs p ++ s.queue p = reqsOf evs p) ∧
    (runLock demoAB1).isSome = true ∧
    (runLock demoAB2).isSome = true ∧
    reqsOf demoAB1 ["a"] = reqsOf demoAB2 ["a"] ∧
    reqsOf demoAB1 ["b"] = reqsOf demoAB2 ["b"] ∧
    grantSeq demoAB1 = [0, 1] ∧
    grantSeq demoAB2 = [1, 0] := by
  refine ⟨?_, ?_, by decide, by decide, by decide, by decide, by decide, by decide⟩
  · intro evs s h p
    exact holder_le_one_from evs initLockSt s (fun _ => by simp [initLockSt]) h p
  · intro evs s h p
    have hq := fifo_from evs initLockSt s h p
    simpa [initLockSt] using hq

/-- Witness for C1 at the trace `demoAB1` and path `a`. -/
theorem claim_C1_lockSerialization_witness :
    (stateAB1.holder ["a"]).length ≤ 1 ∧
    grantsOf demoAB1 ["a"] ++ stateAB1.queue ["a"] = reqsOf demoAB1 ["a"] :=
  ⟨claim_C1_lockSerialization.1 demoAB1 stateAB1 rfl ["a"],
   claim_C1_lockSerialization.2.1 demoAB1 stateAB1 rfl ["a"]⟩

end MultiFileAuthState
